import Mathlib

/-!
Verification development for the Tomo CRM front-end repository.

The development embeds the local-storage utilities (`src/lib/storage.ts`),
the mock integration stubs (`src/lib/integrations.ts`) and the fund context
provider (`src/components/fund-provider.tsx`) as Lean functions, and proves
the behavioral properties stated in the design specification.

JavaScript exceptions are made explicit: a function that may let an
exception escape to its caller is embedded with codomain `Except Unit _`,
where `.error ()` is an uncaught exception. Platform primitives
(`JSON.stringify` / `JSON.parse`, `window.localStorage`, `crypto.randomUUID`,
`encodeURIComponent`, `String.prototype.trim`, `String.prototype.slice`) are
modelled as explicit parameters or as direct Lean translations of their
ECMAScript behavior.
-/

set_option autoImplicit false

namespace TomoCRM

/-- Outcome of `JSON.stringify`: a string, the value `undefined`
(for non-serializable inputs), or a thrown `TypeError` (circular input). -/
inductive StringifyResult : Type where
  | str (s : String)
  | undef
  | err
  deriving DecidableEq

/-- The platform JSON codec for a value type `V`. `parse s = none` models
`JSON.parse(s)` throwing a `SyntaxError`. -/
structure JsonCodec (V : Type) : Type where
  stringify : V → StringifyResult
  parse : String → Option V

/-- Model of `window.localStorage`: a string key-value map, plus a flag saying whether
`setItem` currently throws (e.g. quota exceeded). -/
structure BrowserStorage : Type where
  items : String → Option String
  setItemFails : Bool

/-- The execution environment: `none` is server-side rendering
(`typeof window === "undefined"`), `some st` is a browser with storage `st`. -/
abbrev Env : Type := Option BrowserStorage

/-- Call `localStorage.getItem(key)`: the stored string, or `none` for JS `null`. -/
def getItem (st : BrowserStorage) (key : String) : Option String :=
  st.items key

/-- Call `localStorage.setItem(key, val)`: throws when the storage is failing,
otherwise stores `val` under `key`. -/
def setItem (st : BrowserStorage) (key val : String) : Except Unit BrowserStorage :=
  if st.setItemFails then Except.error ()
  else Except.ok { st with items := fun k => if k = key then some val else st.items k }

/-- A JS `try { body } catch (e) { handler }` block. -/
def tryCatchE {α : Type} (body : Except Unit α) (handler : Unit → Except Unit α) :
    Except Unit α :=
  match body with
  | Except.ok a => Except.ok a
  | Except.error e => handler e

/-- Body of the `try` block of `readFromStorage` in `src/lib/storage.ts`:
`getItem`, the falsy check `if (!raw) return fallback` (JS `null` and the
empty string are falsy), then `JSON.parse(raw)` which may throw. -/
def readBody {V : Type} (codec : JsonCodec V) (st : BrowserStorage) (key : String)
    (fallback : V) : Except Unit V :=
  match getItem st key with
  | none => Except.ok fallback
  | some raw =>
    if raw = "" then Except.ok fallback
    else
      match codec.parse raw with
      | none => Except.error ()
      | some v => Except.ok v

/-- Function `readFromStorage(key, fallback)` from `src/lib/storage.ts`, exceptions
explicit. Returns the fallback during SSR; otherwise runs the `try` body with
a `catch` clause that logs and returns the fallback. -/
def readFromStorage {V : Type} (codec : JsonCodec V) (env : Env) (key : String)
    (fallback : V) : Except Unit V :=
  match env with
  | none => Except.ok fallback
  | some st => tryCatchE (readBody codec st key fallback) (fun _ => Except.ok fallback)

/-- Body of the `try` block of `writeToStorage`: `JSON.stringify(value)`
(which may throw, or produce `undefined` — which `setItem` coerces to the
string `"undefined"`), then `localStorage.setItem`. -/
def writeBody {V : Type} (codec : JsonCodec V) (st : BrowserStorage) (key : String)
    (value : V) : Except Unit BrowserStorage :=
  match codec.stringify value with
  | StringifyResult.err => Except.error ()
  | StringifyResult.str s => setItem st key s
  | StringifyResult.undef => setItem st key "undefined"

/-- Function `writeToStorage(key, value)` from `src/lib/storage.ts`, exceptions
explicit. Skips during SSR; otherwise runs the `try` body with a `catch`
clause that logs and swallows the failure, leaving the storage unchanged. -/
def writeToStorage {V : Type} (codec : JsonCodec V) (env : Env) (key : String)
    (value : V) : Except Unit Env :=
  match env with
  | none => Except.ok none
  | some st => tryCatchE (Except.map some (writeBody codec st key value))
      (fun _ => Except.ok (some st))

/-- The value `readFromStorage` hands to its caller (it never throws, so the
error branch is unreachable). -/
def readValue {V : Type} (codec : JsonCodec V) (env : Env) (key : String)
    (fallback : V) : V :=
  match readFromStorage codec env key fallback with
  | Except.ok v => v
  | Except.error _ => fallback

/-- The environment after `writeToStorage` returns to its caller (it never
throws, so the error branch is unreachable). -/
def writeEnv {V : Type} (codec : JsonCodec V) (env : Env) (key : String)
    (value : V) : Env :=
  match writeToStorage codec env key value with
  | Except.ok e => e
  | Except.error _ => env

/-- Sequence `writeToStorage(key, v)` immediately followed by
`readFromStorage(key, fallback)`. -/
def writeThenRead {V : Type} (codec : JsonCodec V) (env : Env) (key : String)
    (v fallback : V) : Except Unit V :=
  Except.bind (writeToStorage codec env key v)
    (fun env2 => readFromStorage codec env2 key fallback)

/-- Sequence `writeToStorage(key, v1)`, then `writeToStorage(key, v2)`, then
`readFromStorage(key, fallback)`. -/
def writeWriteRead {V : Type} (codec : JsonCodec V) (env : Env) (key : String)
    (v1 v2 fallback : V) : Except Unit V :=
  Except.bind
    (Except.bind (writeToStorage codec env key v1)
      (fun e1 => writeToStorage codec e1 key v2))
    (fun e2 => readFromStorage codec e2 key fallback)

/-- A concrete codec for `Bool`, matching how `JSON` serializes booleans;
used to instantiate the storage theorems at concrete inputs. -/
def boolCodec : JsonCodec Bool :=
  { stringify := fun b => StringifyResult.str (if b then "true" else "false")
    parse := fun s =>
      if s = "true" then some true else if s = "false" then some false else none }

/-- A working browser storage with nothing stored. -/
def emptyStorage : BrowserStorage :=
  { items := fun _ => none, setItemFails := false }

/-! ## The `usePersistentState` hook (`src/lib/storage.ts`) -/

/-- The state a `usePersistentState` hook instance governs: the in-memory
React state and the storage environment it persists to. -/
structure HookState (V : Type) : Type where
  mem : V
  env : Env

/-- Argument of the hook's update function: either a plain value or an
updater function (the code distinguishes them with `typeof val === "function"`). -/
inductive Updater (V : Type) : Type where
  | value (v : V)
  | func (f : V → V)

/-- The selection `typeof val === "function" ? val(prev) : val`. -/
def applyUpdater {V : Type} : Updater V → V → V
  | Updater.value v, _ => v
  | Updater.func f, prev => f prev

/-- Hook initialization: `typeof window !== "undefined" ?
readFromStorage(key, initial) : initial` becomes the initial React state. -/
def usePersistentStateInit {V : Type} (codec : JsonCodec V) (env : Env) (key : String)
    (initial : V) : HookState V :=
  { mem := match env with
      | some _ => readValue codec env key initial
      | none => initial
    env := env }

/-- The hook's `ready` flag: `typeof window !== "undefined"`. -/
def hookReady (env : Env) : Bool :=
  env.isSome

/-- The hook's update function: computes `next` from the previous state,
calls `writeToStorage(key, next)`, and makes `next` the new React state. -/
def usePersistentStateUpdate {V : Type} (codec : JsonCodec V) (key : String)
    (h : HookState V) (val : Updater V) : HookState V :=
  let next := applyUpdater val h.mem
  { mem := next, env := writeEnv codec h.env key next }

/-! ## Mock integration stubs (`src/lib/integrations.ts`) -/

/-- Argument of `connectAffinity`. -/
structure AffinityConnectPayload : Type where
  listId : String
  apiToken : String

/-- The canned object `connectAffinity` resolves to. -/
structure AffinityConnectResult : Type where
  ok : Bool
  listId : String
  tokenLast4 : String
  message : String

/-- JS `s.slice(-n)`: the last `n` characters of `s` (all of `s` when it is
shorter than `n`). -/
def jsSliceLast (s : String) (n : Nat) : String :=
  ⟨s.data.drop (s.data.length - n)⟩

/-- Function `connectAffinity(payload)` from `src/lib/integrations.ts`: after a mock
delay it resolves to a canned success object (no network I/O). -/
def connectAffinity (payload : AffinityConnectPayload) : AffinityConnectResult :=
  { ok := true
    listId := payload.listId
    tokenLast4 := jsSliceLast payload.apiToken 4
    message := "Saved Affinity credentials (mock). In production, store server-side." }

/-- The canned object `createGoogleSheet` resolves to. -/
structure GoogleSheetResult : Type where
  ok : Bool
  filename : String
  url : String

/-- Function `createGoogleSheet(filename)` from `src/lib/integrations.ts`: after a mock
delay it resolves to a canned success object. The platform
`encodeURIComponent` is passed as a parameter. -/
def createGoogleSheet (encodeURIComponent : String → String) (filename : String) :
    GoogleSheetResult :=
  { ok := true
    filename := filename
    url := "https://docs.google.com/spreadsheets/d/mock-" ++ encodeURIComponent filename }

/-! ## The fund provider (`src/components/fund-provider.tsx`) -/

/-- The `Fund` record type. -/
structure Fund : Type where
  id : String
  name : String
  deriving DecidableEq

/-- The `defaultFunds` literal. -/
def defaultFunds : List Fund :=
  [{ id := "fund-1", name := "Fund I" },
   { id := "fund-2", name := "Fund II" },
   { id := "fund-3", name := "Fund III" }]

/-- The provider's state: the persisted fund list and active fund id. -/
structure FundState : Type where
  funds : List Fund
  activeFundId : String
  deriving DecidableEq

/-- The whitespace characters stripped by JS `String.prototype.trim`
(ASCII portion of the ECMAScript white-space and line-terminator sets). -/
def isJsWhitespace (c : Char) : Bool :=
  c = ' ' || c = '\t' || c = '\n' || c = '\r' || c = '\x0b' || c = '\x0c'

/-- Drop the longest run of elements satisfying `p` from the right end. -/
def dropRightWhile {α : Type} (p : α → Bool) (l : List α) : List α :=
  (l.reverse.dropWhile p).reverse

/-- Strip leading and trailing whitespace from a character list. -/
def trimChars (l : List Char) : List Char :=
  dropRightWhile isJsWhitespace (l.dropWhile isJsWhitespace)

/-- JS `String.prototype.trim`. -/
def jsTrim (s : String) : String :=
  ⟨trimChars s.data⟩

/-- The provider's initial state: `defaultFunds` with active fund `"all"`
(the fallbacks of the two `usePersistentState` calls). -/
def initialFundState : FundState :=
  { funds := defaultFunds, activeFundId := "all" }

/-- Operation `addFund(name)`: trims the name, no-ops when the trimmed name is falsy,
otherwise appends a fresh fund (its id from `crypto.randomUUID()`, modelled
as the parameter `newId`) and makes it active. -/
def addFund (s : FundState) (newId : String) (name : String) : FundState :=
  let trimmed := jsTrim name
  if trimmed = "" then s
  else
    { funds := s.funds ++ [{ id := newId, name := trimmed }]
      activeFundId := newId }

/-- Operation `updateFund(id, name)`: trims the name, no-ops when the trimmed name is
falsy, otherwise renames the funds with the given id (the active-id updater
`prev === id ? id : prev` is the identity). -/
def updateFund (s : FundState) (fundId : String) (name : String) : FundState :=
  let trimmed := jsTrim name
  if trimmed = "" then s
  else
    { funds := s.funds.map (fun f => if f.id = fundId then { f with name := trimmed } else f)
      activeFundId := if s.activeFundId = fundId then fundId else s.activeFundId }

/-- Operation `removeFund(id)`: keeps the funds whose id differs from `id`, and resets
the active fund to `"all"` when it was the removed one. -/
def removeFund (s : FundState) (fundId : String) : FundState :=
  { funds := s.funds.filter (fun f => f.id != fundId)
    activeFundId := if s.activeFundId = fundId then "all" else s.activeFundId }

/-- Operation `setActiveFundId(id)`. -/
def setActiveFundId (s : FundState) (fundId : String) : FundState :=
  { s with activeFundId := fundId }

/-- A fund name is well-formed: non-empty, with no leading or trailing
whitespace (a fixed point of `jsTrim`). -/
def FundNameOk (f : Fund) : Prop :=
  f.name ≠ "" ∧ jsTrim f.name = f.name

instance (f : Fund) : Decidable (FundNameOk f) :=
  inferInstanceAs (Decidable (_ ∧ _))

/-- The fund-list invariant: every fund's name is well-formed. -/
def FundInv (s : FundState) : Prop :=
  ∀ f ∈ s.funds, FundNameOk f

instance (s : FundState) : Decidable (FundInv s) :=
  inferInstanceAs (Decidable (∀ f ∈ s.funds, FundNameOk f))

/-! ## Helper lemmas about `dropWhile` and trimming -/

theorem dropWhile_dropWhile {α : Type} (p : α → Bool) (l : List α) :
    (l.dropWhile p).dropWhile p = l.dropWhile p := by
  induction l with
  | nil => rfl
  | cons a t ih =>
    cases h : p a with
    | true => simp [List.dropWhile_cons, h, ih]
    | false => simp [List.dropWhile_cons, h]

theorem dropWhile_eq_cons_not {α : Type} (p : α → Bool) (l : List α) (a : α) (t : List α)
    (h : l.dropWhile p = a :: t) : p a = false := by
  induction l with
  | nil => simp [List.dropWhile] at h
  | cons x xs ih =>
    cases hx : p x with
    | true =>
      rw [List.dropWhile_cons, if_pos (by simp [hx])] at h
      exact ih h
    | false =>
      rw [List.dropWhile_cons, if_neg (by simp [hx])] at h
      cases h
      exact hx

theorem dropWhile_suffix_exists {α : Type} (p : α → Bool) (l : List α) :
    ∃ t, l = t ++ l.dropWhile p := by
  induction l with
  | nil => exact ⟨[], rfl⟩
  | cons a xs ih =>
    cases hx : p a with
    | true =>
      obtain ⟨t, ht⟩ := ih
      refine ⟨a :: t, ?_⟩
      rw [List.dropWhile_cons, if_pos (by simp [hx]), List.cons_append, ← ht]
    | false =>
      refine ⟨[], ?_⟩
      rw [List.dropWhile_cons, if_neg (by simp [hx]), List.nil_append]

theorem dropRightWhile_dropRightWhile {α : Type} (p : α → Bool) (l : List α) :
    dropRightWhile p (dropRightWhile p l) = dropRightWhile p l := by
  unfold dropRightWhile
  rw [List.reverse_reverse, dropWhile_dropWhile]

theorem dropRightWhile_append_exists {α : Type} (p : α → Bool) (l : List α) :
    ∃ t, l = dropRightWhile p l ++ t := by
  obtain ⟨t, ht⟩ := dropWhile_suffix_exists p l.reverse
  refine ⟨t.reverse, ?_⟩
  unfold dropRightWhile
  calc l = l.reverse.reverse := (List.reverse_reverse l).symm
  _ = (t ++ l.reverse.dropWhile p).reverse := by rw [← ht]
  _ = (l.reverse.dropWhile p).reverse ++ t.reverse := List.reverse_append t _

theorem trimChars_trimChars (l : List Char) : trimChars (trimChars l) = trimChars l := by
  have hfix : (trimChars l).dropWhile isJsWhitespace = trimChars l := by
    cases htc : trimChars l with
    | nil => rfl
    | cons a t =>
      obtain ⟨t2, ht2⟩ := dropRightWhile_append_exists isJsWhitespace
        (l.dropWhile isJsWhitespace)
      have hd : l.dropWhile isJsWhitespace = a :: (t ++ t2) := by
        rw [ht2]
        have : dropRightWhile isJsWhitespace (l.dropWhile isJsWhitespace) = a :: t := htc
        rw [this, List.cons_append]
      have ha : isJsWhitespace a = false := dropWhile_eq_cons_not _ l a (t ++ t2) hd
      rw [List.dropWhile_cons, if_neg (by simp [ha])]
  calc trimChars (trimChars l)
      = dropRightWhile isJsWhitespace ((trimChars l).dropWhile isJsWhitespace) := rfl
  _ = dropRightWhile isJsWhitespace (trimChars l) := by rw [hfix]
  _ = trimChars l := dropRightWhile_dropRightWhile isJsWhitespace _

theorem jsTrim_jsTrim (s : String) : jsTrim (jsTrim s) = jsTrim s :=
  congrArg String.mk (trimChars_trimChars s.data)

/-! ## Claim theorems for the storage layer -/

/-- C1: for every key and every value that survives JSON round-tripping
(`stringify v` is the non-empty string `s` and `parse s` recovers `v`),
`writeToStorage(key, v)` followed immediately by
`readFromStorage(key, fallback)` on a working storage returns the value
written. -/
theorem write_then_read_roundtrip {V : Type} (codec : JsonCodec V) (st : BrowserStorage)
    (key s : String) (v fallback : V)
    (hwork : st.setItemFails = false)
    (hstr : codec.stringify v = StringifyResult.str s)
    (hne : s ≠ "")
    (hparse : codec.parse s = some v) :
    writeThenRead codec (some st) key v fallback = Except.ok v := by
  simp [writeThenRead, writeToStorage, writeBody, setItem, hwork, hstr, tryCatchE,
    Except.map, Except.bind, readFromStorage, readBody, getItem, hne, hparse]

theorem write_then_read_roundtrip_witness :
    writeThenRead boolCodec (some emptyStorage) "tomo-active-fund" true false =
      Except.ok true :=
  write_then_read_roundtrip boolCodec emptyStorage "tomo-active-fund" "true" true false
    rfl rfl (by decide) (by decide)

/-- C2: `readFromStorage` never lets an exception escape, and returns exactly
the caller-supplied fallback when the key is absent or when the stored raw
text fails to deserialize. -/
theorem readFromStorage_fallback_total {V : Type} (codec : JsonCodec V) (env : Env)
    (key : String) (fallback : V) :
    (∃ v, readFromStorage codec env key fallback = Except.ok v) ∧
    (∀ st : BrowserStorage, env = some st → getItem st key = none →
      readFromStorage codec env key fallback = Except.ok fallback) ∧
    (∀ (st : BrowserStorage) (raw : String), env = some st → getItem st key = some raw →
      codec.parse raw = none →
      readFromStorage codec env key fallback = Except.ok fallback) := by
  refine ⟨?_, ?_, ?_⟩
  · cases env with
    | none => exact ⟨fallback, rfl⟩
    | some st =>
      cases h : readBody codec st key fallback with
      | ok v => exact ⟨v, by simp [readFromStorage, tryCatchE, h]⟩
      | error e => exact ⟨fallback, by simp [readFromStorage, tryCatchE, h]⟩
  · rintro st rfl hget
    simp [readFromStorage, tryCatchE, readBody, hget]
  · rintro st raw rfl hget hparse
    by_cases hraw : raw = ""
    · simp [readFromStorage, tryCatchE, readBody, hget, hraw]
    · simp [readFromStorage, tryCatchE, readBody, hget, hraw, hparse]

theorem readFromStorage_fallback_total_witness :
    readFromStorage boolCodec (some emptyStorage) "tomo-funds" true = Except.ok true :=
  (readFromStorage_fallback_total boolCodec (some emptyStorage) "tomo-funds" true).2.1
    emptyStorage rfl rfl

/-- C3: `writeToStorage` never lets an exception escape, and on a storage
whose `setItem` throws (quota exceeded) it silently discards the failure,
leaving the storage unchanged. -/
theorem writeToStorage_never_raises {V : Type} (codec : JsonCodec V) (env : Env)
    (key : String) (v : V) :
    (∃ env2, writeToStorage codec env key v = Except.ok env2) ∧
    (∀ items : String → Option String,
      writeToStorage codec (some { items := items, setItemFails := true }) key v =
        Except.ok (some { items := items, setItemFails := true })) := by
  constructor
  · cases env with
    | none => exact ⟨none, rfl⟩
    | some st =>
      cases h : writeBody codec st key v with
      | ok st2 => exact ⟨some st2, by simp [writeToStorage, tryCatchE, Except.map, h]⟩
      | error e => exact ⟨some st, by simp [writeToStorage, tryCatchE, Except.map, h]⟩
  · intro items
    cases h : codec.stringify v with
    | str s => simp [writeToStorage, tryCatchE, writeBody, setItem, Except.map, h]
    | undef => simp [writeToStorage, tryCatchE, writeBody, setItem, Except.map, h]
    | err => simp [writeToStorage, tryCatchE, writeBody, Except.map, h]

/-- C4: during server-side rendering (no `window`), reads return the fallback
and writes are no-ops, both without error. -/
theorem ssr_read_write {V : Type} (codec : JsonCodec V) (key : String) (fallback v : V) :
    readFromStorage codec none key fallback = Except.ok fallback ∧
    writeToStorage codec none key v = Except.ok none :=
  ⟨rfl, rfl⟩

/-- C6: writes are last-write-wins: writing `v1` then `v2` under the same key
and then reading returns `v2`, for any two round-trip-surviving values. -/
theorem write_write_read_last_wins {V : Type} (codec : JsonCodec V) (st : BrowserStorage)
    (key s1 s2 : String) (v1 v2 fallback : V)
    (hwork : st.setItemFails = false)
    (hstr1 : codec.stringify v1 = StringifyResult.str s1)
    (hne1 : s1 ≠ "")
    (hparse1 : codec.parse s1 = some v1)
    (hstr2 : codec.stringify v2 = StringifyResult.str s2)
    (hne2 : s2 ≠ "")
    (hparse2 : codec.parse s2 = some v2) :
    writeWriteRead codec (some st) key v1 v2 fallback = Except.ok v2 := by
  simp [writeWriteRead, writeToStorage, writeBody, setItem, hwork, hstr1, hstr2,
    tryCatchE, Except.map, Except.bind, readFromStorage, readBody, getItem, hne2, hparse2]

theorem write_write_read_last_wins_witness :
    writeWriteRead boolCodec (some emptyStorage) "tomo-active-fund" true false true =
      Except.ok false :=
  write_write_read_last_wins boolCodec emptyStorage "tomo-active-fund" "true" "false"
    true false true rfl rfl (by decide) (by decide) rfl (by decide) (by decide)

/-- C8: a stored empty string is falsy, so `readFromStorage` returns the
fallback without consulting the JSON parser (the result does not depend on
`codec.parse`). -/
theorem read_empty_raw_fallback {V : Type} (codec : JsonCodec V) (st : BrowserStorage)
    (key : String) (fallback : V) (h : getItem st key = some "") :
    readFromStorage codec (some st) key fallback = Except.ok fallback := by
  simp [readFromStorage, tryCatchE, readBody, h]

theorem read_empty_raw_fallback_witness :
    readFromStorage boolCodec
      (some { items := fun k => if k = "tomo-funds" then some "" else none,
              setItemFails := false })
      "tomo-funds" true = Except.ok true :=
  read_empty_raw_fallback boolCodec
    { items := fun k => if k = "tomo-funds" then some "" else none, setItemFails := false }
    "tomo-funds" true (by simp [getItem])

/-! ## Claim theorems for the hook, the integration stubs and the fund provider -/

/-- C5: `usePersistentState(key, initial)` seeds its in-memory value from
`readFromStorage(key, initial)` (which is `initial` during SSR), and each
update makes the new value the in-memory state while persisting exactly that
value with `writeToStorage(key, ...)` as part of the update. -/
theorem usePersistentState_spec {V : Type} (codec : JsonCodec V) (env : Env) (key : String)
    (initial v : V) (f : V → V) (h : HookState V) :
    (usePersistentStateInit codec env key initial).mem = readValue codec env key initial ∧
    (usePersistentStateInit codec env key initial).env = env ∧
    usePersistentStateUpdate codec key h (Updater.value v) =
      { mem := v, env := writeEnv codec h.env key v } ∧
    usePersistentStateUpdate codec key h (Updater.func f) =
      { mem := f h.mem, env := writeEnv codec h.env key (f h.mem) } := by
  refine ⟨?_, rfl, rfl, rfl⟩
  cases env with
  | none => rfl
  | some st => rfl

/-- C7: the integration stubs return canned success objects:
`connectAffinity` reports `ok`, echoes the list id and exposes the last four
characters of the API token (all of it when shorter); `createGoogleSheet`
reports `ok` and echoes the filename. -/
theorem integration_stubs (payload : AffinityConnectPayload)
    (enc : String → String) (filename : String) :
    (connectAffinity payload).ok = true ∧
    (connectAffinity payload).listId = payload.listId ∧
    (4 ≤ payload.apiToken.data.length →
      (connectAffinity payload).tokenLast4.data =
        payload.apiToken.data.drop (payload.apiToken.data.length - 4) ∧
      (connectAffinity payload).tokenLast4.data.length = 4 ∧
      payload.apiToken.data =
        payload.apiToken.data.take (payload.apiToken.data.length - 4) ++
          (connectAffinity payload).tokenLast4.data) ∧
    (createGoogleSheet enc filename).ok = true ∧
    (createGoogleSheet enc filename).filename = filename := by
  refine ⟨rfl, rfl, ?_, rfl, rfl⟩
  intro hlen
  refine ⟨rfl, ?_, ?_⟩
  · show (payload.apiToken.data.drop (payload.apiToken.data.length - 4)).length = 4
    rw [List.length_drop]
    omega
  · exact (List.take_append_drop _ _).symm

theorem integration_stubs_witness :
    (connectAffinity { listId := "list-9", apiToken := "abcd1234" }).tokenLast4.data =
      ("abcd1234" : String).data.drop (("abcd1234" : String).data.length - 4) :=
  (And.left
    (And.left (And.right (And.right (integration_stubs
      { listId := "list-9", apiToken := "abcd1234" } id "contacts"))) (by decide)))

/-- C9: every fund name in the provider's state is non-empty and has no
leading or trailing whitespace: the default state satisfies this, each of
`addFund`, `updateFund`, `removeFund`, `setActiveFundId` preserves it, and
`addFund`/`updateFund` leave the state unchanged when the trimmed name is
empty. -/
theorem fundProvider_invariant (s : FundState) (newId fundId name : String)
    (hs : FundInv s) :
    FundInv initialFundState ∧
    FundInv (addFund s newId name) ∧
    FundInv (updateFund s fundId name) ∧
    FundInv (removeFund s fundId) ∧
    FundInv (setActiveFundId s fundId) ∧
    (jsTrim name = "" → addFund s newId name = s ∧ updateFund s fundId name = s) := by
  refine ⟨by decide, ?_, ?_, ?_, hs, ?_⟩
  · intro f hf
    by_cases htr : jsTrim name = ""
    · rw [addFund, if_pos htr] at hf
      exact hs f hf
    · rw [addFund, if_neg htr, List.mem_append] at hf
      rcases hf with hf | hf
      · exact hs f hf
      · rcases List.mem_singleton.mp hf with rfl
        exact ⟨htr, jsTrim_jsTrim name⟩
  · intro f hf
    by_cases htr : jsTrim name = ""
    · rw [updateFund, if_pos htr] at hf
      exact hs f hf
    · rw [updateFund, if_neg htr] at hf
      simp only [List.mem_map] at hf
      obtain ⟨g, hg, rfl⟩ := hf
      by_cases hid : g.id = fundId
      · rw [if_pos hid]
        exact ⟨htr, jsTrim_jsTrim name⟩
      · rw [if_neg hid]
        exact hs g hg
  · intro f hf
    exact hs f (List.mem_filter.mp hf).1
  · intro htr
    constructor
    · rw [addFund, if_pos htr]
    · rw [updateFund, if_pos htr]

theorem fundProvider_invariant_witness :
    FundInv (addFund initialFundState "fund-4" "  Fund IV  ") :=
  (fundProvider_invariant initialFundState "fund-4" "fund-1" "  Fund IV  " (by decide)).2.1

/-- C10 counterexample: removing `"fund-1"` while the active fund id is
`"all"` leaves the active fund id equal to `"all"` even though it did not
equal the removed id, so "becomes the string value all if and only if it equalled
the removed id" fails in the only-if direction. -/
theorem removeFund_active_iff_counterexample :
    (removeFund initialFundState "fund-1").activeFundId = "all" ∧
    initialFundState.activeFundId ≠ "fund-1" := by
  constructor
  · decide
  · decide

/-- C10 (amended): `removeFund(id)` keeps exactly the funds whose id differs
from `id` — same records, same multiplicities, same relative order — and the
active fund id is set to `"all"` when it equalled the removed id and is left
unchanged otherwise. -/
theorem removeFund_exact (s : FundState) (fundId : String) :
    (∀ f : Fund, f ∈ (removeFund s fundId).funds ↔ f ∈ s.funds ∧ f.id ≠ fundId) ∧
    List.Sublist (removeFund s fundId).funds s.funds ∧
    (∀ f : Fund, f.id ≠ fundId →
      (removeFund s fundId).funds.count f = s.funds.count f) ∧
    (s.activeFundId = fundId → (removeFund s fundId).activeFundId = "all") ∧
    (s.activeFundId ≠ fundId → (removeFund s fundId).activeFundId = s.activeFundId) := by
  refine ⟨?_, ?_, ?_, ?_, ?_⟩
  · intro f
    simp [removeFund, List.mem_filter]
  · exact List.filter_sublist _
  · intro f hf
    have hp : ((fun g : Fund => g.id != fundId) f) = true := by
      simp [hf]
    exact List.count_filter hp
  · intro hact
    show (if s.activeFundId = fundId then "all" else s.activeFundId) = "all"
    rw [if_pos hact]
  · intro hact
    show (if s.activeFundId = fundId then "all" else s.activeFundId) = s.activeFundId
    rw [if_neg hact]

theorem removeFund_exact_witness :
    (removeFund { funds := defaultFunds, activeFundId := "fund-1" } "fund-1").activeFundId =
      "all" ∧
    ({ id := "fund-2", name := "Fund II" } : Fund) ∈
      (removeFund { funds := defaultFunds, activeFundId := "fund-1" } "fund-1").funds :=
  ⟨(removeFund_exact { funds := defaultFunds, activeFundId := "fund-1" } "fund-1").2.2.2.1
      rfl,
   ((removeFund_exact { funds := defaultFunds, activeFundId := "fund-1" } "fund-1").1
      { id := "fund-2", name := "Fund II" }).mpr ⟨by decide, by decide⟩⟩

end TomoCRM
